import Mathlib

/-!
Shallow embedding of the retrieval engine in `retriever.py` (module `Retriever`),
together with proofs of the spec's testable properties.

Modelling conventions:
* Embedding vectors are an abstract type `V`; the external sentence-transformer
  model is an abstract function `embed : String → V`, and the external token
  counter (tiktoken) is an abstract `tok : String → Nat`.
* The FAISS flat index is modelled by the list of vectors added to it, in order.
* The two persisted artifacts (`index.faiss`, `metadata.json`) are modelled by a
  `DbDir` record; `none` means the file is absent, `some none` means the file is
  present but unreadable (read/parse raises), `some (some v)` means reading it
  yields `v`.  Round-tripping of readable artifacts is exact, as required of the
  persistence layer.
* FAISS `index.search` is an external call; its result (the row
  `indices[0].tolist()` of positions) enters the model as an explicit `hits`
  argument, constrained by `ValidHits`, the contract of a flat index: `k` slots,
  each a valid position or the sentinel `-1`, valid positions pairwise distinct,
  and sentinels only pad the result when every stored position is already
  present (a flat index returns all `n` entries when `k > n`).
* Python builtins used by the code (`str.split()`, `str.strip()`,
  `str.split("\n\n")`, `range`, `sorted(set(..))`) are modelled by structurally
  recursive functions `pyWords`, `pyStrip`, `pySplitDoubleNewline`, `pyRange`,
  `pySortedSet` with the exact Python semantics on the relevant inputs.
-/

namespace FubChatbot

/-- `TARGET_CHUNK_TOKENS` constant from `retriever.py`. -/
def TARGET_CHUNK_TOKENS : Nat := 300

/-- `DEFAULT_CHUNK_TOKENS` constant from `retriever.py`. -/
def DEFAULT_CHUNK_TOKENS : Nat := 300

/-- One entry of the metadata store: `{"source": ..., "text": ...}`. -/
structure MetaEntry where
  source : String
  text : String
deriving DecidableEq, Repr

/-- A FAISS flat index, modelled by the vectors added to it, in order.
`IndexFlatL2` is append-only, so the state is exactly this list. -/
structure FaissIndex (V : Type) where
  vectors : List V
deriving DecidableEq, Repr

/-- `index.ntotal`: the number of stored vectors. -/
def FaissIndex.size {V : Type} (idx : FaissIndex V) : Nat := idx.vectors.length

/-- The mutable fields of a `Retriever` object relevant to the engine:
`self.index`, `self.metadata`, `self.window_size`. -/
structure RetrieverState (V : Type) where
  index : Option (FaissIndex V)
  metadata : List MetaEntry
  window_size : Nat
deriving DecidableEq, Repr

/-- The persisted snapshot directory `db/`:
`indexFile` models `index.faiss` and `metaFile` models `metadata.json`.
`none` = absent, `some none` = present but unreadable (reading raises),
`some (some v)` = present and reading yields `v`. -/
structure DbDir (V : Type) where
  indexFile : Option (Option (FaissIndex V))
  metaFile : Option (Option (List MetaEntry))
deriving DecidableEq, Repr

/-! ### Python string builtins, modelled structurally over the character list -/

/-- Helper for `pyWords`: scan characters, `acc` holds the current word reversed. -/
def wordsAux : List Char → List Char → List String
  | [], acc => if acc.isEmpty then [] else [String.mk acc.reverse]
  | c :: rest, acc =>
    if c.isWhitespace then
      if acc.isEmpty then wordsAux rest [] else String.mk acc.reverse :: wordsAux rest []
    else wordsAux rest (c :: acc)

/-- Python `text.split()`: split on runs of whitespace, dropping empty pieces. -/
def pyWords (s : String) : List String := wordsAux s.data []

/-- Python `s.strip()`: drop leading and trailing whitespace. -/
def pyStrip (s : String) : String :=
  String.mk (((s.data.dropWhile Char.isWhitespace).reverse.dropWhile Char.isWhitespace).reverse)

/-- Helper for `pySplitDoubleNewline`: split at each non-overlapping `"\n\n"`,
scanning left to right; `acc` holds the current piece reversed. -/
def paraSplitAux : List Char → List Char → List String
  | [], acc => [String.mk acc.reverse]
  | '\n' :: '\n' :: rest, acc => String.mk acc.reverse :: paraSplitAux rest []
  | c :: rest, acc => paraSplitAux rest (c :: acc)

/-- Python `full_text.split("\n\n")`. -/
def pySplitDoubleNewline (s : String) : List String := paraSplitAux s.data []

/-- Python `range(a, b)` over integers (step 1). -/
def pyRange (a b : Int) : List Int :=
  (List.range (b - a).toNat).map (fun j : Nat => a + (j : Int))

/-- Python `sorted(set(l))`: the distinct elements in increasing order. -/
def pySortedSet (l : List Int) : List Int := List.insertionSort (· ≤ ·) l.dedup

/-! ### The chunker (`_build_index`, PDF smart-chunking loop) -/

/-- The paragraph-accumulation loop of `_build_index` (lines 91-107 of
`retriever.py`).  A running chunk is represented by the list of (stripped,
non-empty) paragraphs it accumulated; the string the code appends to `texts`
at flush time is `current_chunk.strip()`, which equals the space-join
`" ".intercalate` of exactly these paragraphs.  `current_tokens` is threaded
explicitly, as in the code. -/
def chunkLoop (tok : String → Nat) (target : Nat) :
    List String → List String → Nat → List (List String)
  | [], current_chunk, _ =>
    if current_chunk = [] then [] else [current_chunk]
  | p :: rest, current_chunk, current_tokens =>
    let para := pyStrip p
    if para = "" then
      chunkLoop tok target rest current_chunk current_tokens
    else
      let para_tokens := tok para
      if target < current_tokens + para_tokens ∧ current_chunk ≠ [] then
        current_chunk :: chunkLoop tok target rest [para] para_tokens
      else
        chunkLoop tok target rest (current_chunk ++ [para]) (current_tokens + para_tokens)

/-- Smart chunking of a paragraph list: the loop started with an empty running
chunk and zero token count. -/
def chunkParagraphs (tok : String → Nat) (target : Nat) (paragraphs : List String) :
    List (List String) :=
  chunkLoop tok target paragraphs [] 0

/-! ### `_split_text` (fixed word-count windows) -/

/-- Helper for `splitWords`: `acc` is the current window reversed, `budget` the
number of words still to be added to it before it is emitted. -/
def splitWordsGo (chunk_size : Nat) : List String → List String → Nat → List (List String)
  | [], acc, _ => [acc.reverse]
  | w :: rest, acc, 0 => acc.reverse :: splitWordsGo chunk_size rest [w] (chunk_size - 1)
  | w :: rest, acc, budget + 1 => splitWordsGo chunk_size rest (w :: acc) budget

/-- The window decomposition performed by `_split_text`'s loop
`for i in range(0, len(words), chunk_size)` with `words[i:i + chunk_size]`,
for `chunk_size ≥ 1`: consecutive non-overlapping windows of `chunk_size`
words, last window possibly shorter. -/
def splitWords (chunk_size : Nat) (ws : List String) : List (List String) :=
  match ws with
  | [] => []
  | w :: rest => splitWordsGo chunk_size rest [w] (chunk_size - 1)

/-- The default value of `_split_text`'s `chunk_size` parameter:
`TARGET_CHUNK_TOKENS if TARGET_CHUNK_TOKENS > 0 else DEFAULT_CHUNK_TOKENS`. -/
def split_text_default_chunk_size : Nat :=
  if 0 < TARGET_CHUNK_TOKENS then TARGET_CHUNK_TOKENS else DEFAULT_CHUNK_TOKENS

/-- `Retriever._split_text(text, source, chunk_size)`: split the text into
whitespace-separated words, then emit one `(source, chunk)` pair per window of
`chunk_size` words, the chunk being the space-join of the window. -/
def split_text (text : String) (source : String) (chunk_size : Nat) :
    List (String × String) :=
  (splitWords chunk_size (pyWords text)).map (fun c => (source, " ".intercalate c))

/-! ### The document loader (`_build_index` extraction loop) -/

/-- One file of the input directory `data/`, as the extraction loop sees it:
its type (by suffix), its `file.name` and `file.stem`, and the raw content the
external reader yields (CSV rows as the `str` values of each row dict, PDF as
the full extracted text, txt/md as the file text). -/
inductive SrcFile where
  | csv (name stem : String) (rows : List (List String))
  | pdf (name : String) (fullText : String)
  | txt (name stem : String) (content : String)
  | unsupported (name : String)
deriving DecidableEq, Repr

/-- The line built for one CSV row:
`" → ".join(str(value).strip() for value in row.values() if value)`. -/
def csvRowLine (row : List String) : String :=
  " → ".intercalate ((row.filter (fun v => v ≠ "")).map pyStrip)

/-- The `(file.name, chunk_text)` pairs one file contributes to `texts` in
`_build_index`.  For PDFs the smart-chunking branch is taken exactly when
`TARGET_CHUNK_TOKENS > 0`; a flushed chunk's string is the space-join of its
accumulated paragraphs (see `chunkLoop`). -/
def extractFile (tok : String → Nat) : SrcFile → List (String × String)
  | .csv name stem rows =>
    (rows.map csvRowLine).filterMap
      (fun line => if line = "" then none else some (name, stem ++ ": " ++ line))
  | .pdf name fullText =>
    let paragraphs := pySplitDoubleNewline fullText
    if 0 < TARGET_CHUNK_TOKENS then
      (chunkParagraphs tok TARGET_CHUNK_TOKENS paragraphs).map
        (fun c => (name, " ".intercalate c))
    else
      paragraphs.filterMap
        (fun p => let q := pyStrip p; if q = "" then none else some (name, q))
  | .txt name stem content =>
    (split_text content name split_text_default_chunk_size).map
      (fun pr => (name, stem ++ ": " ++ pr.2))
  | .unsupported _ => []

/-- The full `texts` list accumulated over `self.data_dir.glob("*")`. -/
def extractTexts (tok : String → Nat) (files : List SrcFile) : List (String × String) :=
  (files.map (extractFile tok)).flatten

/-! ### Build and load (`_build_index` tail, `load_or_build`) -/

/-- Error message raised by `_build_index` when no text chunks were found. -/
def noChunksMsg : String :=
  "No text chunks found. Please make sure that .md or supported files are present in 'data/'."

/-- `Retriever._build_index` after extraction: raise if `texts` is empty,
otherwise embed every chunk text, build a fresh flat index holding those
embeddings in order, set `self.metadata` to the parallel `{source, text}`
records, and write both artifacts.  The returned triple is (outcome, state of
the `Retriever` object afterwards, state of the `db/` directory afterwards);
an `Except.error` models a raised exception. -/
def build_index {V : Type} (embed : String → V) (tok : String → Nat)
    (files : List SrcFile) (st : RetrieverState V) (fs : DbDir V) :
    Except String Unit × RetrieverState V × DbDir V :=
  let texts := extractTexts tok files
  if texts = [] then
    (Except.error noChunksMsg, st, fs)
  else
    let embeddings := texts.map (fun t => embed t.2)
    let index : FaissIndex V := ⟨embeddings⟩
    let metadata := texts.map (fun t => ⟨t.1, t.2⟩)
    (Except.ok (),
      { st with index := some index, metadata := metadata },
      { fs with indexFile := some (some index), metaFile := some (some metadata) })

/-- The load branch of `load_or_build`: the code reads the index
(`self.index = faiss.read_index(...)`) and then the metadata
(`self.metadata = json.loads(...)`).  A read/parse failure raises at that
point, so a metadata read failure leaves `self.index` already replaced.
No size/alignment check is performed on the loaded pair. -/
def loadFiles {V : Type} (st : RetrieverState V) (fs : DbDir V)
    (indexRead : Option (FaissIndex V)) (metaRead : Option (List MetaEntry)) :
    Except String Unit × RetrieverState V × DbDir V :=
  match indexRead with
  | none => (Except.error "could not read index file", st, fs)
  | some index =>
    match metaRead with
    | none =>
      (Except.error "could not parse metadata file", { st with index := some index }, fs)
    | some metadata =>
      (Except.ok (), { st with index := some index, metadata := metadata }, fs)

/-- `Retriever.load_or_build(force_rebuild)`: when `force_rebuild` is false and
both artifacts exist, load them; otherwise run `_build_index`. -/
def load_or_build {V : Type} (embed : String → V) (tok : String → Nat)
    (files : List SrcFile) (st : RetrieverState V) (fs : DbDir V)
    (force_rebuild : Bool) :
    Except String Unit × RetrieverState V × DbDir V :=
  match force_rebuild, fs.indexFile, fs.metaFile with
  | false, some indexRead, some metaRead => loadFiles st fs indexRead metaRead
  | _, _, _ => build_index embed tok files st fs

/-! ### Search -/

/-- FAISS search-result contract for a flat index with `n` stored vectors and
requested `k`: the row `indices[0].tolist()` has `k` slots, each slot is a
stored position or the sentinel `-1`, stored positions are pairwise distinct,
and a sentinel appears only when every stored position is already among the
slots (a flat index pads with `-1` exactly when `k` exceeds `n`). -/
def ValidHits (n k : Nat) (hits : List Int) : Prop :=
  hits.length = k ∧
  (∀ i ∈ hits, i = -1 ∨ (0 ≤ i ∧ i < (n : Int))) ∧
  (hits.filter (fun i => i ≠ -1)).Nodup ∧
  ((-1 : Int) ∈ hits → ∀ j : Nat, j < n → (j : Int) ∈ hits)

/-- One window expansion step of `search`:
`range(max(0, i - self.window_size), min(len(self.metadata), i + self.window_size + 1))`. -/
def expandHit (w n : Nat) (i : Int) : List Int :=
  pyRange (max 0 (i - w)) (min (n : Int) (i + w + 1))

/-- The `selected_indices` value of `search` just before the final list
comprehension: the raw hit row when `self.window_size == 0`, otherwise
`sorted(set(expanded_indices))` over all window expansions. -/
def selectedIndices (w n : Nat) (hits : List Int) : List Int :=
  if 0 < w then pySortedSet ((hits.map (expandHit w n)).flatten) else hits

/-- `self.metadata[i]["text"]` for a non-negative in-range position (the only
positions the theorems put through it). -/
def textAt {V : Type} (st : RetrieverState V) (i : Int) : String :=
  ((st.metadata.getD i.toNat ⟨"", ""⟩).text)

/-- The positions whose texts `search` returns:
`[i for i in selected_indices if i != -1]`. -/
def searchPositions {V : Type} (st : RetrieverState V) (hits : List Int) : List Int :=
  (selectedIndices st.window_size st.metadata.length hits).filter (fun i => i ≠ -1)

/-- `Retriever.search(query, k)`.  The query embedding and the FAISS call are
external; the hit row they produce enters as `hits` (see `ValidHits`).  With no
loaded index the method raises `RuntimeError`; otherwise it is read-only and
returns the metadata texts of the selected non-sentinel positions. -/
def search {V : Type} (st : RetrieverState V) (hits : List Int) :
    Except String (List String) :=
  match st.index with
  | none => Except.error "Index is not loaded. Use load_or_build()."
  | some _ => Except.ok ((searchPositions st hits).map (textAt st))

/-! ### Auxiliary definitions used by the statements -/

/-- The token count the chunk loop attributes to a running chunk: the sum of
the token counts of its paragraphs (the quantity `current_tokens` tracks). -/
def sumTok (tok : String → Nat) (c : List String) : Nat := (c.map tok).sum

/-- A loaded retriever with five stored chunks at positions 0..4 and
context-window radius 1 — the spec's worked expansion example. -/
def exampleRetriever : RetrieverState Nat :=
  ⟨some ⟨[0, 0, 0, 0, 0]⟩,
   [⟨"d", "t0"⟩, ⟨"d", "t1"⟩, ⟨"d", "t2"⟩, ⟨"d", "t3"⟩, ⟨"d", "t4"⟩], 1⟩

/-- A snapshot directory whose two artifacts are both readable but mismatched:
the index holds 1 vector while the metadata lists 2 entries. -/
def misalignedDb : DbDir Nat :=
  ⟨some (some ⟨[7]⟩), some (some [⟨"a", "x"⟩, ⟨"b", "y"⟩])⟩

/-- The index a successful build constructs: one embedding per extracted
chunk text, in extraction order (`self.index.add(embeddings)`). -/
def builtIndex {V : Type} (embed : String → V) (tok : String → Nat)
    (files : List SrcFile) : FaissIndex V :=
  ⟨(extractTexts tok files).map (fun t => embed t.2)⟩

/-- The metadata a successful build constructs:
`[{"source": t[0], "text": t[1]} for t in texts]`. -/
def builtMetadata (tok : String → Nat) (files : List SrcFile) : List MetaEntry :=
  (extractTexts tok files).map (fun t => ⟨t.1, t.2⟩)

/-! ### Lemmas on the Python builtin models -/

theorem mem_pyRange {a b x : Int} : x ∈ pyRange a b ↔ a ≤ x ∧ x < b := by
  simp only [pyRange, List.mem_map, List.mem_range]
  constructor
  · rintro ⟨j, hj, rfl⟩
    omega
  · intro h
    exact ⟨(x - a).toNat, by omega, by omega⟩

theorem mem_pySortedSet {l : List Int} {x : Int} : x ∈ pySortedSet l ↔ x ∈ l :=
  ((List.perm_insertionSort _ _).mem_iff).trans List.mem_dedup

theorem nodup_pySortedSet (l : List Int) : (pySortedSet l).Nodup :=
  ((List.perm_insertionSort _ _).nodup_iff).mpr (List.nodup_dedup l)

theorem sorted_lt_pySortedSet (l : List Int) : (pySortedSet l).Sorted (· < ·) :=
  List.Sorted.lt_of_le (List.sorted_insertionSort _ _) (nodup_pySortedSet l)

theorem pySortedSet_congr {l₁ l₂ : List Int} (h : ∀ x, x ∈ l₁ ↔ x ∈ l₂) :
    pySortedSet l₁ = pySortedSet l₂ := by
  have hsub₁ : l₁.dedup ⊆ l₂.dedup := fun x hx =>
    List.mem_dedup.mpr ((h x).mp (List.mem_dedup.mp hx))
  have hsub₂ : l₂.dedup ⊆ l₁.dedup := fun x hx =>
    List.mem_dedup.mpr ((h x).mpr (List.mem_dedup.mp hx))
  have hperm : l₁.dedup.Perm l₂.dedup :=
    ((List.nodup_dedup l₁).subperm hsub₁).antisymm ((List.nodup_dedup l₂).subperm hsub₂)
  have hp : (pySortedSet l₁).Perm (pySortedSet l₂) :=
    ((List.perm_insertionSort _ _).trans hperm).trans (List.perm_insertionSort _ _).symm
  exact List.eq_of_perm_of_sorted hp
    (List.sorted_insertionSort _ _) (List.sorted_insertionSort _ _)

/-- A list of pairwise-distinct integers all lying in `[0, n)` has at most `n`
elements. -/
theorem length_le_of_nodup_mem_range {l : List Int} {n : Nat}
    (hnd : l.Nodup) (hmem : ∀ x ∈ l, 0 ≤ x ∧ x < (n : Int)) : l.length ≤ n := by
  have hsub : l ⊆ (List.range n).map (fun j : Nat => (j : Int)) := by
    intro x hx
    rcases hmem x hx with ⟨h0, hn⟩
    simp only [List.mem_map, List.mem_range]
    exact ⟨x.toNat, by omega, by omega⟩
  have hle := (hnd.subperm hsub).length_le
  simpa using hle

/-! ### Lemmas on window expansion -/

/-- Membership in one expansion window, phrased as the clipped inclusive range
`[i - w, i + w] ∩ [0, n - 1]`. -/
theorem mem_expandHit {w n : Nat} {i x : Int} :
    x ∈ expandHit w n i ↔
      i - w ≤ x ∧ x ≤ i + w ∧ 0 ≤ x ∧ x < (n : Int) := by
  simp only [expandHit, mem_pyRange]
  omega

/-- Under the FAISS contract, a sentinel slot contributes no position that is
not already contributed by a real hit: membership in the flattened expansion
of all slots coincides with membership in the expansions of non-sentinel
slots. -/
theorem mem_expand_flatten {n k w : Nat} {hits : List Int}
    (hv : ValidHits n k hits) (x : Int) :
    x ∈ ((hits.map (expandHit w n)).flatten) ↔
      ∃ i ∈ hits, i ≠ -1 ∧ x ∈ expandHit w n i := by
  simp only [List.mem_flatten, List.mem_map]
  constructor
  · rintro ⟨_, ⟨i, hi, rfl⟩, hx⟩
    by_cases hne : i = -1
    · subst hne
      rw [mem_expandHit] at hx
      have hxn : x.toNat < n := by omega
      have hmem : ((x.toNat : Nat) : Int) ∈ hits := hv.2.2.2 hi x.toNat hxn
      have hxx : ((x.toNat : Nat) : Int) = x := Int.toNat_of_nonneg (by omega)
      rw [hxx] at hmem
      exact ⟨x, hmem, by omega, mem_expandHit.mpr (by omega)⟩
    · exact ⟨i, hi, hne, hx⟩
  · rintro ⟨i, hi, -, hx⟩
    exact ⟨expandHit w n i, ⟨i, hi, rfl⟩, hx⟩

/-! ### Lemmas on the chunk loop -/

/-- The chunk loop neither duplicates nor drops paragraph text: flattening its
output recovers the running chunk followed by the stripped non-empty
paragraphs of the remaining input. -/
theorem chunkLoop_flatten (tok : String → Nat) (target : Nat) :
    ∀ (ps cur : List String) (t : Nat),
      (chunkLoop tok target ps cur t).flatten
        = cur ++ (ps.map pyStrip).filter (fun p => p ≠ "") := by
  intro ps
  induction ps with
  | nil =>
    intro cur t
    by_cases hc : cur = []
    · simp [chunkLoop, hc]
    · simp [chunkLoop, hc]
  | cons p rest ih =>
    intro cur t
    by_cases hp : pyStrip p = ""
    · simp [chunkLoop, hp, ih]
    · by_cases hf : target < t + tok (pyStrip p) ∧ cur ≠ []
      · simp [chunkLoop, hp, hf, ih]
      · simp [chunkLoop, hp, hf, ih]

/-- Every chunk the loop emits is non-empty. -/
theorem chunkLoop_ne_nil (tok : String → Nat) (target : Nat) :
    ∀ (ps cur : List String) (t : Nat),
      ∀ c ∈ chunkLoop tok target ps cur t, c ≠ [] := by
  intro ps
  induction ps with
  | nil =>
    intro cur t c hc
    by_cases hcur : cur = []
    · simp [chunkLoop, hcur] at hc
    · simp [chunkLoop, hcur] at hc
      rw [hc]
      exact hcur
  | cons p rest ih =>
    intro cur t c hc
    by_cases hp : pyStrip p = ""
    · rw [chunkLoop] at hc
      simp only [if_pos hp] at hc
      exact ih cur t c hc
    · by_cases hf : target < t + tok (pyStrip p) ∧ cur ≠ []
      · rw [chunkLoop] at hc
        simp only [if_neg hp, if_pos hf, List.mem_cons] at hc
        rcases hc with h | hc
        · rw [h]
          exact hf.2
        · exact ih _ _ c hc
      · rw [chunkLoop] at hc
        simp only [if_neg hp, if_neg hf] at hc
        exact ih _ _ c hc

/-- Budget invariant of the chunk loop: provided the running chunk respects it,
every emitted chunk is a single paragraph or stays within the target. -/
theorem chunkLoop_budget (tok : String → Nat) (target : Nat) :
    ∀ (ps cur : List String) (t : Nat),
      t = sumTok tok cur → (2 ≤ cur.length → t ≤ target) →
      ∀ c ∈ chunkLoop tok target ps cur t, c.length = 1 ∨ sumTok tok c ≤ target := by
  intro ps
  induction ps with
  | nil =>
    intro cur t ht hb c hc
    by_cases hcur : cur = []
    · simp [chunkLoop, hcur] at hc
    · simp [chunkLoop, hcur] at hc
      rw [hc]
      rcases Nat.lt_or_ge cur.length 2 with h2 | h2
      · left
        have h1 : 1 ≤ cur.length := List.length_pos.mpr hcur
        omega
      · right
        rw [← ht]
        exact hb h2
  | cons p rest ih =>
    intro cur t ht hb c hc
    by_cases hp : pyStrip p = ""
    · rw [chunkLoop] at hc
      simp only [if_pos hp] at hc
      exact ih cur t ht hb c hc
    · by_cases hf : target < t + tok (pyStrip p) ∧ cur ≠ []
      · rw [chunkLoop] at hc
        simp only [if_neg hp, if_pos hf, List.mem_cons] at hc
        rcases hc with h | hc
        · rw [h]
          rcases Nat.lt_or_ge cur.length 2 with h2 | h2
          · left
            have h1 : 1 ≤ cur.length := List.length_pos.mpr hf.2
            omega
          · right
            rw [← ht]
            exact hb h2
        · refine ih _ _ ?_ ?_ c hc
          · simp [sumTok]
          · intro h
            simp at h
      · rw [chunkLoop] at hc
        simp only [if_neg hp, if_neg hf] at hc
        refine ih _ _ ?_ ?_ c hc
        · simp [sumTok, ht]
        · intro h2
          by_cases he : cur = []
          · subst he
            simp at h2
          · exact Nat.le_of_not_lt (fun hgt => hf ⟨hgt, he⟩)

/-! ### Lemmas on the word-window splitter -/

theorem splitWordsGo_flatten (N : Nat) :
    ∀ (rest acc : List String) (b : Nat),
      (splitWordsGo N rest acc b).flatten = acc.reverse ++ rest := by
  intro rest
  induction rest with
  | nil =>
    intro acc b
    simp [splitWordsGo]
  | cons w rest ih =>
    intro acc b
    cases b with
    | zero => simp [splitWordsGo, ih]
    | succ b => simp [splitWordsGo, ih]

theorem splitWordsGo_ne_nil (N : Nat) :
    ∀ (rest acc : List String) (b : Nat), splitWordsGo N rest acc b ≠ [] := by
  intro rest
  induction rest with
  | nil =>
    intro acc b
    simp [splitWordsGo]
  | cons w rest ih =>
    intro acc b
    cases b with
    | zero => simp [splitWordsGo]
    | succ b => simp [splitWordsGo, ih]

/-- Window-size invariant of the splitter loop: the current window is
non-empty and fills up to exactly `N` words; every emitted window except the
last has exactly `N` words, and every window is non-empty with at most `N`
words. -/
theorem splitWordsGo_lengths (N : Nat) :
    ∀ (rest acc : List String) (b : Nat), acc ≠ [] → acc.length + b = N →
      (∀ c ∈ splitWordsGo N rest acc b, c ≠ [] ∧ c.length ≤ N) ∧
      (∀ c ∈ (splitWordsGo N rest acc b).dropLast, c.length = N) := by
  intro rest
  induction rest with
  | nil =>
    intro acc b hne hlen
    constructor
    · intro c hc
      simp only [splitWordsGo, List.mem_singleton] at hc
      rw [hc]
      refine ⟨by simpa using hne, ?_⟩
      simp only [List.length_reverse]
      omega
    · intro c hc
      simp [splitWordsGo] at hc
  | cons w rest ih =>
    intro acc b hne hlen
    cases b with
    | zero =>
      have hpos : 1 ≤ acc.length := List.length_pos.mpr hne
      have hrec := ih [w] (N - 1) (by simp) (by simp; omega)
      have hacc : acc.length = N := by omega
      have htail := splitWordsGo_ne_nil N rest [w] (N - 1)
      have hsplit : splitWordsGo N (w :: rest) acc 0
          = acc.reverse :: splitWordsGo N rest [w] (N - 1) := by
        simp [splitWordsGo]
      constructor
      · intro c hc
        rw [hsplit, List.mem_cons] at hc
        rcases hc with h | hc
        · rw [h]
          refine ⟨by simpa using hne, by simp [hacc]⟩
        · exact hrec.1 c hc
      · intro c hc
        rw [hsplit] at hc
        have hdrop : (acc.reverse :: splitWordsGo N rest [w] (N - 1)).dropLast
            = acc.reverse :: (splitWordsGo N rest [w] (N - 1)).dropLast := by
          cases hsg : splitWordsGo N rest [w] (N - 1) with
          | nil => exact absurd hsg htail
          | cons x xs => rfl
        rw [hdrop, List.mem_cons] at hc
        rcases hc with h | hc
        · rw [h]
          simp [hacc]
        · exact hrec.2 c hc
    | succ b =>
      have hrec := ih (w :: acc) b (by simp) (by simp; omega)
      have hsplit : splitWordsGo N (w :: rest) acc (b + 1)
          = splitWordsGo N rest (w :: acc) b := by
        simp [splitWordsGo]
      rw [hsplit]
      exact hrec

/-! ### Reduction lemmas for `load_or_build` and `build_index` -/

/-- With `force_rebuild` true, `load_or_build` always runs the build. -/
theorem load_or_build_true {V : Type} (embed : String → V) (tok : String → Nat)
    (files : List SrcFile) (st : RetrieverState V) (fs : DbDir V) :
    load_or_build embed tok files st fs true = build_index embed tok files st fs := by
  obtain ⟨fi, fm⟩ := fs
  rfl

/-- When the build path is selected (`force_rebuild` or a missing artifact),
`load_or_build` runs the build. -/
theorem load_or_build_build_path {V : Type} (embed : String → V) (tok : String → Nat)
    (files : List SrcFile) (st : RetrieverState V) (fs : DbDir V) (force : Bool)
    (hpath : force = true ∨ fs.indexFile = none ∨ fs.metaFile = none) :
    load_or_build embed tok files st fs force = build_index embed tok files st fs := by
  obtain ⟨fi, fm⟩ := fs
  cases force with
  | true => rfl
  | false =>
    rcases hpath with h | h | h
    · exact absurd h (by simp)
    · replace h : fi = none := h
      subst h
      rfl
    · replace h : fm = none := h
      subst h
      cases fi with
      | none => rfl
      | some ir => rfl

/-- With `force_rebuild` false and both artifacts present, `load_or_build`
loads them. -/
theorem load_or_build_load {V : Type} (embed : String → V) (tok : String → Nat)
    (files : List SrcFile) (st : RetrieverState V) (fs : DbDir V)
    (ir : Option (FaissIndex V)) (mr : Option (List MetaEntry))
    (h1 : fs.indexFile = some ir) (h2 : fs.metaFile = some mr) :
    load_or_build embed tok files st fs false = loadFiles st fs ir mr := by
  obtain ⟨fi, fm⟩ := fs
  replace h1 : fi = some ir := h1
  replace h2 : fm = some mr := h2
  subst h1
  subst h2
  rfl

/-- A build over a non-empty extraction succeeds and installs the aligned
index/metadata pair, writing both artifacts. -/
theorem build_index_nonempty {V : Type} (embed : String → V) (tok : String → Nat)
    (files : List SrcFile) (st : RetrieverState V) (fs : DbDir V)
    (h : extractTexts tok files ≠ []) :
    build_index embed tok files st fs
      = (Except.ok (),
         { st with index := some (builtIndex embed tok files),
                   metadata := builtMetadata tok files },
         { fs with indexFile := some (some (builtIndex embed tok files)),
                   metaFile := some (some (builtMetadata tok files)) }) := by
  rw [build_index]
  simp only [h, if_false, if_neg h]
  rfl

/-! ### Claim theorems -/

/-- C8 (NotLoaded): for every hit row (hence every query and `k`), calling
`search` before any successful `load_or_build` — while `self.index` is still
`None` — raises the explicit `"Index is not loaded."` error.  No result is
produced (the outcome is the bare error), and `search` reads but never writes
the retriever state, so the state is unmodified. -/
theorem search_not_loaded_C8 {V : Type} (st : RetrieverState V) (hits : List Int)
    (h : st.index = none) :
    search st hits = Except.error "Index is not loaded. Use load_or_build()." := by
  rw [search, h]

/-- Witness for C8 at a concrete unloaded retriever and hit row. -/
theorem search_not_loaded_C8_witness :
    search (⟨none, [], 0⟩ : RetrieverState Nat) [0, 1, -1]
      = Except.error "Index is not loaded. Use load_or_build()." :=
  search_not_loaded_C8 ⟨none, [], 0⟩ [0, 1, -1] rfl

/-- C6 (EmptyCorpus): if extraction over the input directory yields zero text
units, the build raises the "no text chunks found" error; neither artifact is
written (the `db/` directory is returned unchanged) and the in-memory
index/metadata are left untouched (the retriever state is returned unchanged).
The same holds for `load_or_build(force_rebuild=True)`, which takes the build
path. -/
theorem empty_corpus_C6 {V : Type} (embed : String → V) (tok : String → Nat)
    (files : List SrcFile) (st : RetrieverState V) (fs : DbDir V)
    (hempty : extractTexts tok files = []) :
    build_index embed tok files st fs = (Except.error noChunksMsg, st, fs) ∧
    load_or_build embed tok files st fs true = (Except.error noChunksMsg, st, fs) := by
  have hb : build_index embed tok files st fs = (Except.error noChunksMsg, st, fs) := by
    simp [build_index, hempty]
  exact ⟨hb, (load_or_build_true embed tok files st fs).trans hb⟩

/-- Witness for C6: an input directory holding only an unsupported file yields
zero text units; the build errors and writes nothing. -/
theorem empty_corpus_C6_witness :
    build_index (fun s => s.length) (fun s => s.length) [SrcFile.unsupported "x.exe"]
        (⟨none, [], 0⟩ : RetrieverState Nat) ⟨none, none⟩
      = (Except.error noChunksMsg, ⟨none, [], 0⟩, ⟨none, none⟩) ∧
    load_or_build (fun s => s.length) (fun s => s.length) [SrcFile.unsupported "x.exe"]
        (⟨none, [], 0⟩ : RetrieverState Nat) ⟨none, none⟩ true
      = (Except.error noChunksMsg, ⟨none, [], 0⟩, ⟨none, none⟩) :=
  empty_corpus_C6 (fun s => s.length) (fun s => s.length) [SrcFile.unsupported "x.exe"]
    ⟨none, [], 0⟩ ⟨none, none⟩ rfl

/-- C1 (alignment invariant): after every successful build — `load_or_build`
taking the build path — the metadata store and the index have the same number
of entries, and the vector at position `i` of the index is the embedding of
the chunk text recorded at position `i` of the metadata store. -/
theorem build_alignment_C1 {V : Type} (embed : String → V) (tok : String → Nat)
    (files : List SrcFile) (st : RetrieverState V) (fs : DbDir V) (force : Bool)
    (hpath : force = true ∨ fs.indexFile = none ∨ fs.metaFile = none)
    (st' : RetrieverState V) (fs' : DbDir V)
    (hok : load_or_build embed tok files st fs force = (Except.ok (), st', fs')) :
    ∃ idx : FaissIndex V, st'.index = some idx ∧
      st'.metadata.length = idx.size ∧
      idx.vectors = st'.metadata.map (fun m => embed m.text) := by
  rw [load_or_build_build_path embed tok files st fs force hpath] at hok
  by_cases hempty : extractTexts tok files = []
  · simp [build_index, hempty] at hok
  · rw [build_index_nonempty embed tok files st fs hempty] at hok
    simp only [Prod.mk.injEq] at hok
    obtain ⟨-, hst, -⟩ := hok
    refine ⟨builtIndex embed tok files, ?_, ?_, ?_⟩
    · rw [← hst]
    · rw [← hst]
      simp [builtIndex, builtMetadata, FaissIndex.size]
    · rw [← hst]
      simp [builtIndex, builtMetadata, List.map_map]

/-- Witness for C1: a forced build over one text file, checked at the
resulting concrete state. -/
theorem build_alignment_C1_witness :
    ∃ idx : FaissIndex Nat,
      (RetrieverState.mk (some ⟨[14]⟩) [⟨"a.txt", "a: hello world"⟩] 0).index = some idx ∧
      (RetrieverState.mk (some ⟨[14]⟩) [⟨"a.txt", "a: hello world"⟩] 0).metadata.length
        = idx.size ∧
      idx.vectors
        = (RetrieverState.mk (some ⟨[14]⟩) [⟨"a.txt", "a: hello world"⟩] 0).metadata.map
            (fun m => (fun s : String => s.length) m.text) :=
  build_alignment_C1 (fun s => s.length) (fun s => s.length)
    [SrcFile.txt "a.txt" "a" "hello world"] ⟨none, [], 0⟩ ⟨none, none⟩ true
    (Or.inl rfl)
    ⟨some ⟨[14]⟩, [⟨"a.txt", "a: hello world"⟩], 0⟩
    ⟨some (some ⟨[14]⟩), some (some [⟨"a.txt", "a: hello world"⟩])⟩
    rfl

/-- C7 (chunk-budget soft ceiling): in token-budget mode with target `T > 0`,
every produced chunk either is a single paragraph (the claim's exemption covers
the case where that paragraph alone exceeds `T`) or has token count at most
`T` — in particular never more than `T` plus the count of the paragraph that
triggered the flush.  Paragraph content is never truncated: flattening the
chunks yields exactly the stripped non-empty paragraphs, each appearing in
full in exactly one chunk, with any non-empty remainder flushed as the final
chunk.  Chunks are never empty. -/
theorem chunk_budget_C7 (tok : String → Nat) (target : Nat) (paragraphs : List String)
    (hT : 0 < target) :
    (∀ c ∈ chunkParagraphs tok target paragraphs,
        c.length = 1 ∨ sumTok tok c ≤ target) ∧
    (∀ c ∈ chunkParagraphs tok target paragraphs, c ≠ []) ∧
    (chunkParagraphs tok target paragraphs).flatten
      = (paragraphs.map pyStrip).filter (fun p => p ≠ "") := by
  refine ⟨?_, ?_, ?_⟩
  · refine chunkLoop_budget tok target paragraphs [] 0 (by simp [sumTok]) ?_
    intro h
    simp at h
  · exact chunkLoop_ne_nil tok target paragraphs [] 0
  · exact chunkLoop_flatten tok target paragraphs [] 0

/-- Witness for C7 with a word-count tokenizer, target 3 and three
paragraphs. -/
theorem chunk_budget_C7_witness :
    (∀ c ∈ chunkParagraphs (fun s => (pyWords s).length) 3 ["a b", "c d", "e"],
        c.length = 1 ∨ sumTok (fun s => (pyWords s).length) c ≤ 3) ∧
    (∀ c ∈ chunkParagraphs (fun s => (pyWords s).length) 3 ["a b", "c d", "e"], c ≠ []) ∧
    (chunkParagraphs (fun s => (pyWords s).length) 3 ["a b", "c d", "e"]).flatten
      = ((["a b", "c d", "e"] : List String).map pyStrip).filter (fun p => p ≠ "") :=
  chunk_budget_C7 (fun s => (pyWords s).length) 3 ["a b", "c d", "e"] (by decide)

/-- The window decomposition of a word list for positive window size: windows
concatenate back to the input, all windows are non-empty with at most `N`
words, and all but the last have exactly `N`. -/
theorem splitWords_spec (N : Nat) (hN : 0 < N) (ws : List String) :
    (splitWords N ws).flatten = ws ∧
    (∀ c ∈ splitWords N ws, c ≠ [] ∧ c.length ≤ N) ∧
    (∀ c ∈ (splitWords N ws).dropLast, c.length = N) := by
  cases ws with
  | nil => simp [splitWords]
  | cons w rest =>
    have hgo := splitWordsGo_lengths N rest [w] (N - 1) (by simp) (by simp; omega)
    refine ⟨?_, hgo.1, hgo.2⟩
    have hfl := splitWordsGo_flatten N rest [w] (N - 1)
    simpa [splitWords] using hfl

/-- C10 (word-split partition): for every text and positive `chunk_size`,
`_split_text` pairs the source with the space-joins of consecutive
non-overlapping windows of the text's whitespace-separated words; every window
except possibly the last has exactly `chunk_size` words, the windows
concatenate back to the input's word sequence, every window is non-empty, and
a text with no words yields no chunks. -/
theorem split_text_windows_C10 (text source : String) (chunk_size : Nat)
    (hN : 0 < chunk_size) :
    split_text text source chunk_size
      = (splitWords chunk_size (pyWords text)).map
          (fun c => (source, " ".intercalate c)) ∧
    (splitWords chunk_size (pyWords text)).flatten = pyWords text ∧
    (∀ c ∈ splitWords chunk_size (pyWords text), c ≠ [] ∧ c.length ≤ chunk_size) ∧
    (∀ c ∈ (splitWords chunk_size (pyWords text)).dropLast, c.length = chunk_size) ∧
    (pyWords text = [] → split_text text source chunk_size = []) := by
  obtain ⟨h1, h2, h3⟩ := splitWords_spec chunk_size hN (pyWords text)
  refine ⟨rfl, h1, h2, h3, ?_⟩
  intro h
  simp [split_text, h, splitWords]

/-- Witness for C10 on a three-word text split into windows of two. -/
theorem split_text_windows_C10_witness :
    split_text "a b c" "s.txt" 2
      = (splitWords 2 (pyWords "a b c")).map
          (fun c => ("s.txt", " ".intercalate c)) ∧
    (splitWords 2 (pyWords "a b c")).flatten = pyWords "a b c" ∧
    (∀ c ∈ splitWords 2 (pyWords "a b c"), c ≠ [] ∧ c.length ≤ 2) ∧
    (∀ c ∈ (splitWords 2 (pyWords "a b c")).dropLast, c.length = 2) ∧
    (pyWords "a b c" = [] → split_text "a b c" "s.txt" 2 = []) :=
  split_text_windows_C10 "a b c" "s.txt" 2 (by decide)

/-- With a loaded index, `search` returns the texts of the selected
positions. -/
theorem search_loaded {V : Type} (st : RetrieverState V) (idx : FaissIndex V)
    (hits : List Int) (hidx : st.index = some idx) :
    search st hits = Except.ok ((searchPositions st hits).map (textAt st)) := by
  rw [search, hidx]

/-- With window size 0, the selected positions are the raw hits filtered of
sentinels, in hit order. -/
theorem searchPositions_zero {V : Type} (st : RetrieverState V) (hits : List Int)
    (hw : st.window_size = 0) :
    searchPositions st hits = hits.filter (fun i => i ≠ -1) := by
  rw [searchPositions, selectedIndices, hw]
  simp

/-- With positive window size, the final sentinel filter is a no-op: all
expanded positions are non-negative, so the selected positions are exactly
`sorted(set(expanded_indices))`. -/
theorem searchPositions_pos {V : Type} (st : RetrieverState V) (hits : List Int)
    (hw : 0 < st.window_size) :
    searchPositions st hits
      = pySortedSet ((hits.map
          (expandHit st.window_size st.metadata.length)).flatten) := by
  rw [searchPositions, selectedIndices, if_pos hw]
  apply List.filter_eq_self.mpr
  intro x hx
  have hx' := mem_pySortedSet.mp hx
  simp only [List.mem_flatten, List.mem_map] at hx'
  obtain ⟨_, ⟨i, hi, rfl⟩, hxe⟩ := hx'
  rw [mem_expandHit] at hxe
  simp only [ne_eq, decide_eq_true_eq]
  omega

/-- Every selected position is a valid metadata position, and the selected
positions are pairwise distinct. -/
theorem searchPositions_length_le {V : Type} (st : RetrieverState V) (k : Nat)
    (hits : List Int) (hv : ValidHits st.metadata.length k hits) :
    (searchPositions st hits).length ≤ st.metadata.length := by
  rcases Nat.eq_zero_or_pos st.window_size with hw | hw
  · rw [searchPositions_zero st hits hw]
    apply length_le_of_nodup_mem_range hv.2.2.1
    intro x hx
    obtain ⟨hxh, hxne⟩ := List.mem_filter.mp hx
    rcases hv.2.1 x hxh with h | h
    · subst h
      simp at hxne
    · exact h
  · rw [searchPositions_pos st hits hw]
    apply length_le_of_nodup_mem_range (nodup_pySortedSet _)
    intro x hx
    have hx' := mem_pySortedSet.mp hx
    simp only [List.mem_flatten, List.mem_map] at hx'
    obtain ⟨_, ⟨i, hi, rfl⟩, hxe⟩ := hx'
    rw [mem_expandHit] at hxe
    exact ⟨by omega, by omega⟩

/-- C4: when the context-window radius is 0, `search` performs no expansion
and no re-sort: it returns exactly the metadata texts of the non-sentinel hit
positions, in the relevance-ranked order the index returned them, and at most
`k` texts. -/
theorem no_window_order_C4 {V : Type} (st : RetrieverState V) (idx : FaissIndex V)
    (k : Nat) (hits : List Int)
    (hidx : st.index = some idx) (hw : st.window_size = 0) (hlen : hits.length = k) :
    search st hits
      = Except.ok ((hits.filter (fun i => i ≠ -1)).map (textAt st)) ∧
    ∀ l, search st hits = Except.ok l → l.length ≤ k := by
  have hmain : search st hits
      = Except.ok ((hits.filter (fun i => i ≠ -1)).map (textAt st)) := by
    rw [search_loaded st idx hits hidx, searchPositions_zero st hits hw]
  refine ⟨hmain, ?_⟩
  intro l hl
  rw [hmain] at hl
  have hll : (hits.filter (fun i => i ≠ -1)).map (textAt st) = l := Except.ok.inj hl
  rw [← hll, List.length_map]
  calc (hits.filter (fun i => i ≠ -1)).length ≤ hits.length := List.length_filter_le _ _
    _ = k := hlen

/-- Witness for C4: a 2-entry loaded index, `k = 5`, three sentinel slots. -/
theorem no_window_order_C4_witness :
    search (⟨some ⟨[10, 20]⟩, [⟨"s", "t0"⟩, ⟨"s", "t1"⟩], 0⟩ : RetrieverState Nat)
        [1, 0, -1, -1, -1]
      = Except.ok ((([1, 0, -1, -1, -1] : List Int).filter (fun i => i ≠ -1)).map
          (textAt (⟨some ⟨[10, 20]⟩, [⟨"s", "t0"⟩, ⟨"s", "t1"⟩], 0⟩ : RetrieverState Nat))) ∧
    ∀ l, search (⟨some ⟨[10, 20]⟩, [⟨"s", "t0"⟩, ⟨"s", "t1"⟩], 0⟩ : RetrieverState Nat)
        [1, 0, -1, -1, -1] = Except.ok l → l.length ≤ 5 :=
  no_window_order_C4 ⟨some ⟨[10, 20]⟩, [⟨"s", "t0"⟩, ⟨"s", "t1"⟩], 0⟩ ⟨[10, 20]⟩ 5
    [1, 0, -1, -1, -1] rfl rfl rfl

/-- C2 (sentinel discard): sentinel `-1` slots never affect the returned
texts — the search outcome equals the outcome on the hit row with sentinels
discarded up front, for every window radius (including `w > 0`), so no
position contributed by a sentinel slot ever adds a text that discarding
sentinels first would not produce.  Moreover any returned list has at most
`index.size` entries, so an index holding `n < k` entries yields at most `n`
texts, never `k` padded entries. -/
theorem sentinel_discard_C2 {V : Type} (st : RetrieverState V) (idx : FaissIndex V)
    (k : Nat) (hits : List Int)
    (hidx : st.index = some idx) (hsize : idx.size = st.metadata.length)
    (hv : ValidHits st.metadata.length k hits) :
    search st hits = search st (hits.filter (fun i => i ≠ -1)) ∧
    ∀ l, search st hits = Except.ok l → l.length ≤ idx.size := by
  have hposeq : searchPositions st hits
      = searchPositions st (hits.filter (fun i => i ≠ -1)) := by
    rcases Nat.eq_zero_or_pos st.window_size with hw | hw
    · rw [searchPositions_zero st _ hw, searchPositions_zero st _ hw]
      exact (List.filter_eq_self.mpr (fun a ha => (List.mem_filter.mp ha).2)).symm
    · rw [searchPositions_pos st _ hw, searchPositions_pos st _ hw]
      apply pySortedSet_congr
      intro x
      rw [mem_expand_flatten hv x]
      simp only [List.mem_flatten, List.mem_map, List.mem_filter]
      constructor
      · rintro ⟨i, hi, hne, hx⟩
        refine ⟨expandHit st.window_size st.metadata.length i, ⟨i, ⟨hi, ?_⟩, rfl⟩, hx⟩
        simpa using hne
      · rintro ⟨_, ⟨i, ⟨hi, hne⟩, rfl⟩, hx⟩
        refine ⟨i, hi, ?_, hx⟩
        simpa using hne
  constructor
  · rw [search_loaded st idx hits hidx, search_loaded st idx _ hidx, hposeq]
  · intro l hl
    rw [search_loaded st idx hits hidx] at hl
    have hll : (searchPositions st hits).map (textAt st) = l := Except.ok.inj hl
    rw [← hll, List.length_map, hsize]
    exact searchPositions_length_le st k hits hv

/-- Witness for C2: 2 stored chunks, `k = 5`, window radius 1, FAISS row
`[0, 1, -1, -1, -1]`. -/
theorem sentinel_discard_C2_witness :
    search (⟨some ⟨[10, 20]⟩, [⟨"s", "t0"⟩, ⟨"s", "t1"⟩], 1⟩ : RetrieverState Nat)
        [0, 1, -1, -1, -1]
      = search (⟨some ⟨[10, 20]⟩, [⟨"s", "t0"⟩, ⟨"s", "t1"⟩], 1⟩ : RetrieverState Nat)
          (([0, 1, -1, -1, -1] : List Int).filter (fun i => i ≠ -1)) ∧
    ∀ l, search (⟨some ⟨[10, 20]⟩, [⟨"s", "t0"⟩, ⟨"s", "t1"⟩], 1⟩ : RetrieverState Nat)
        [0, 1, -1, -1, -1] = Except.ok l
      → l.length ≤ (FaissIndex.mk [10, 20] : FaissIndex Nat).size :=
  sentinel_discard_C2 ⟨some ⟨[10, 20]⟩, [⟨"s", "t0"⟩, ⟨"s", "t1"⟩], 1⟩ ⟨[10, 20]⟩ 5
    [0, 1, -1, -1, -1] rfl rfl (by unfold ValidHits; decide)

/-- C3 (window expansion): with radius `w > 0`, the positions whose texts
`search` returns are exactly the union, over the non-sentinel top-`k` hit
positions `i`, of the inclusive ranges `[i-w, i+w]` clipped to
`[0, len(metadata)-1]`, in strictly ascending order with no duplicates; in
particular, with 5 stored chunks, a single top-1 hit at position 2 and
`w = 1`, the returned positions are `[1, 2, 3]`. -/
theorem window_expansion_C3 {V : Type} (st : RetrieverState V) (idx : FaissIndex V)
    (k : Nat) (hits : List Int)
    (hidx : st.index = some idx) (hsize : idx.size = st.metadata.length)
    (hw : 0 < st.window_size) (hv : ValidHits st.metadata.length k hits) :
    (searchPositions st hits).Sorted (· < ·) ∧
    (∀ x : Int, x ∈ searchPositions st hits ↔
      ∃ i ∈ hits, i ≠ -1 ∧
        i - st.window_size ≤ x ∧ x ≤ i + st.window_size ∧
        0 ≤ x ∧ x ≤ (st.metadata.length : Int) - 1) ∧
    search st hits = Except.ok ((searchPositions st hits).map (textAt st)) ∧
    searchPositions exampleRetriever [2] = [1, 2, 3] := by
  refine ⟨?_, ?_, search_loaded st idx hits hidx, by decide⟩
  · rw [searchPositions_pos st hits hw]
    exact sorted_lt_pySortedSet _
  · intro x
    rw [searchPositions_pos st hits hw, mem_pySortedSet, mem_expand_flatten hv x]
    simp only [mem_expandHit]
    constructor
    · rintro ⟨i, hi, hne, h⟩
      exact ⟨i, hi, hne, by omega⟩
    · rintro ⟨i, hi, hne, h⟩
      exact ⟨i, hi, hne, by omega⟩

/-- Witness for C3 at the spec's worked example: 5 chunks, hit row `[2]`,
radius 1. -/
theorem window_expansion_C3_witness :
    (searchPositions exampleRetriever [2]).Sorted (· < ·) ∧
    (∀ x : Int, x ∈ searchPositions exampleRetriever [2] ↔
      ∃ i ∈ ([2] : List Int), i ≠ -1 ∧
        i - exampleRetriever.window_size ≤ x ∧ x ≤ i + exampleRetriever.window_size ∧
        0 ≤ x ∧ x ≤ (exampleRetriever.metadata.length : Int) - 1) ∧
    search exampleRetriever [2]
      = Except.ok ((searchPositions exampleRetriever [2]).map (textAt exampleRetriever)) ∧
    searchPositions exampleRetriever [2] = [1, 2, 3] :=
  window_expansion_C3 exampleRetriever ⟨[0, 0, 0, 0, 0]⟩ 1 [2] rfl rfl
    (by decide) (by unfold ValidHits; decide)

/-- After a call that took the build path, a second non-forced call loads the
just-written snapshot and reproduces the same outcome and state. -/
theorem build_then_load_fixed {V : Type} (embed : String → V) (tok : String → Nat)
    (files : List SrcFile) (st : RetrieverState V) (fs : DbDir V)
    (h : load_or_build embed tok files st fs false = build_index embed tok files st fs) :
    load_or_build embed tok files
        (load_or_build embed tok files st fs false).2.1
        (load_or_build embed tok files st fs false).2.2 false
      = load_or_build embed tok files st fs false := by
  by_cases hempty : extractTexts tok files = []
  · have hb : build_index embed tok files st fs = (Except.error noChunksMsg, st, fs) := by
      simp [build_index, hempty]
    rw [h, hb]
    exact h.trans hb
  · have hb := build_index_nonempty embed tok files st fs hempty
    rw [h, hb]
    exact (load_or_build_load embed tok files _ _
      (some (builtIndex embed tok files)) (some (builtMetadata tok files)) rfl rfl).trans rfl

/-- C9 (idempotence of loading): with no external file changes between the
calls, running `load_or_build(force_rebuild=False)` twice in a row yields
exactly the state (and outcome, and snapshot directory) of running it once;
in particular every subsequent `search` sees the same results. -/
theorem load_idempotent_C9 {V : Type} (embed : String → V) (tok : String → Nat)
    (files : List SrcFile) (st : RetrieverState V) (fs : DbDir V) :
    load_or_build embed tok files
        (load_or_build embed tok files st fs false).2.1
        (load_or_build embed tok files st fs false).2.2 false
      = load_or_build embed tok files st fs false ∧
    ∀ hits : List Int,
      search (load_or_build embed tok files
          (load_or_build embed tok files st fs false).2.1
          (load_or_build embed tok files st fs false).2.2 false).2.1 hits
        = search (load_or_build embed tok files st fs false).2.1 hits := by
  have key : load_or_build embed tok files
      (load_or_build embed tok files st fs false).2.1
      (load_or_build embed tok files st fs false).2.2 false
      = load_or_build embed tok files st fs false := by
    obtain ⟨fi, fm⟩ := fs
    cases fi with
    | none =>
      exact build_then_load_fixed embed tok files st ⟨none, fm⟩
        (load_or_build_build_path embed tok files st ⟨none, fm⟩ false
          (Or.inr (Or.inl rfl)))
    | some ir =>
      cases fm with
      | none =>
        exact build_then_load_fixed embed tok files st ⟨some ir, none⟩
          (load_or_build_build_path embed tok files st ⟨some ir, none⟩ false
            (Or.inr (Or.inr rfl)))
      | some mr =>
        have h1 := load_or_build_load embed tok files st ⟨some ir, some mr⟩ ir mr rfl rfl
        rw [h1]
        cases ir with
        | none => exact h1
        | some index =>
          cases mr with
          | none =>
            exact (load_or_build_load embed tok files _ _
              (some index) none rfl rfl).trans rfl
          | some metadata =>
            exact (load_or_build_load embed tok files _ _
              (some index) (some metadata) rfl rfl).trans rfl
  exact ⟨key, fun hits => by rw [key]⟩

/-- C5 counterexample: with `force_rebuild` false and both artifacts present
and readable but mismatched (index holds 1 vector, metadata lists 2 entries),
`load_or_build` succeeds — no error surfaces — and the in-memory state ends
misaligned (`index.size ≠ len(metadata)`), contradicting the claim that a
mismatched snapshot surfaces a load error. -/
theorem corrupt_snapshot_C5_counterexample :
    load_or_build (fun s => s.length) (fun s => s.length) []
        (⟨none, [], 0⟩ : RetrieverState Nat) misalignedDb false
      = (Except.ok (),
         ⟨some ⟨[7]⟩, [⟨"a", "x"⟩, ⟨"b", "y"⟩], 0⟩, misalignedDb) ∧
    (FaissIndex.mk [7] : FaissIndex Nat).size
      ≠ ([⟨"a", "x"⟩, ⟨"b", "y"⟩] : List MetaEntry).length := by
  exact ⟨rfl, by decide⟩

/-- C5 as amended: with `force_rebuild` false and both artifacts present, an
unreadable artifact makes the load surface an error to the caller and nothing
falls back to a rebuild (the snapshot directory is returned untouched, so no
artifact is rewritten); but a size mismatch between two readable artifacts is
NOT detected — the load silently succeeds with whatever (possibly misaligned)
pair the artifacts contain. -/
theorem corrupt_snapshot_C5_amended {V : Type} (embed : String → V)
    (tok : String → Nat) (files : List SrcFile)
    (st : RetrieverState V) (fs : DbDir V)
    (ir : Option (FaissIndex V)) (mr : Option (List MetaEntry))
    (h1 : fs.indexFile = some ir) (h2 : fs.metaFile = some mr) :
    ((ir = none ∨ mr = none) →
      (∃ e, (load_or_build embed tok files st fs false).1 = Except.error e) ∧
      (load_or_build embed tok files st fs false).2.2 = fs) ∧
    (∀ (idx : FaissIndex V) (md : List MetaEntry), ir = some idx → mr = some md →
      load_or_build embed tok files st fs false
        = (Except.ok (), { st with index := some idx, metadata := md }, fs)) := by
  have hload := load_or_build_load embed tok files st fs ir mr h1 h2
  constructor
  · intro hbad
    rw [hload]
    rcases hbad with h | h
    · subst h
      exact ⟨⟨"could not read index file", rfl⟩, rfl⟩
    · subst h
      cases ir with
      | none => exact ⟨⟨"could not read index file", rfl⟩, rfl⟩
      | some index => exact ⟨⟨"could not parse metadata file", rfl⟩, rfl⟩
  · intro idx md hi hm
    subst hi
    subst hm
    rw [hload, loadFiles]

/-- Witness for the amended C5: a readable-index/unreadable-metadata snapshot
errors without touching the directory, and the mismatched-but-readable
snapshot of the counterexample's shape loads successfully. -/
theorem corrupt_snapshot_C5_amended_witness :
    ((((some (FaissIndex.mk ([5] : List Nat)) : Option (FaissIndex Nat)) = none ∨
        (none : Option (List MetaEntry)) = none) →
      (∃ e, (load_or_build (fun s => s.length) (fun s => s.length) []
          (⟨none, [], 0⟩ : RetrieverState Nat)
          ⟨some (some ⟨[5]⟩), some none⟩ false).1 = Except.error e) ∧
      (load_or_build (fun s => s.length) (fun s => s.length) []
          (⟨none, [], 0⟩ : RetrieverState Nat)
          ⟨some (some ⟨[5]⟩), some none⟩ false).2.2
        = (⟨some (some ⟨[5]⟩), some none⟩ : DbDir Nat)) ∧
    (∀ (idx : FaissIndex Nat) (md : List MetaEntry),
      (some (FaissIndex.mk ([5] : List Nat)) : Option (FaissIndex Nat)) = some idx →
      (none : Option (List MetaEntry)) = some md →
      load_or_build (fun s => s.length) (fun s => s.length) []
          (⟨none, [], 0⟩ : RetrieverState Nat)
          ⟨some (some ⟨[5]⟩), some none⟩ false
        = (Except.ok (),
           { (⟨none, [], 0⟩ : RetrieverState Nat) with index := some idx, metadata := md },
           ⟨some (some ⟨[5]⟩), some none⟩))) :=
  corrupt_snapshot_C5_amended (fun s => s.length) (fun s => s.length) []
    ⟨none, [], 0⟩ ⟨some (some ⟨[5]⟩), some none⟩ (some ⟨[5]⟩) none rfl rfl

end FubChatbot
